import Mathlib

/-!
Verification of the xiaozhi-go voice-assistant client against its
natural-language specification.

The development shallowly embeds the Go sources:
* the session engine (`Client` in the `client` package): state machine,
  session id handling, message dispatch, audio gating;
* the WebSocket transport (`WebsocketProtocol` in `internal/protocol`):
  connected-flag gating of `SendJSON` / `SendBinary`;
* the playback queue of `AudioPlayerNew` (`internal/audio`);
* the `type`-discriminator extractor `protocol.MessageType`.

Stateful Go code becomes explicit state passing over a `World` record that
holds the client's fields plus observable effect logs (headers set, transport
sends, callback invocations).  Nondeterministic outcomes of the environment
(transport send results, connect results, the disconnect watchdog racing the
normal handler) are passed in as explicit parameters, so every function is an
executable `def`.  `uuid.New().String()` is modelled by `uuidGen` applied to a
per-client counter: an opaque, never-empty, fresh identifier.
-/

/-- Client states, from the `State*` constants in the `client` package. -/
inductive CState
  | idle
  | connecting
  | listening
  | speaking
deriving DecidableEq

/-- Outbound JSON control messages built by the client (package `protocol`
message structs), carrying the fields the client fills in. -/
inductive OutMsg
  | helloMsg (version : Nat) (transport fmt : String)
      (sampleRate channels frameDuration : Nat)
  | listenMsg (sessionID st mode text : String)
  | abortMsg (sessionID reason : String)
  | iotStateMsg (sessionID : String) (isDescriptors : Bool)
deriving DecidableEq

/-- The mutable fields of the Go `Client` struct that the claims are about.
`uuidCounter` drives `uuidGen`, modelling the freshness of `uuid.New()`. -/
structure Client where
  state : CState
  sessionID : String
  deviceID : String
  clientID : String
  token : String
  listenMode : String
  uuidCounter : Nat
deriving DecidableEq

/-- The client together with the observable effects of its operations:
the transport's connected flag, the headers handed to `SetHeader`, connect
attempts, messages handed to `SendJSON` / `SendBinary`, and each registered
callback's invocation log. -/
structure World where
  client : Client
  connected : Bool
  headers : List (String × String)
  connectAttempts : Nat
  connectURLs : List String
  jsonSends : List OutMsg
  binarySends : List (List Nat)
  stateChanges : List (CState × CState)
  speakTexts : List String
  recognizedTexts : List String
  audioDataEvents : List (List Nat)
  emotionEvents : List (String × String)
  iotCommandEvents : List (List String)
  channelOpenCount : Nat
  channelClosedCount : Nat
  networkErrorCount : Nat
deriving DecidableEq

/-- The freshly constructed client (`client.New`): Idle, all strings empty. -/
def initWorld : World :=
  { client :=
      { state := .idle, sessionID := "", deviceID := "", clientID := "",
        token := "", listenMode := "", uuidCounter := 0 }
    connected := false, headers := [], connectAttempts := 0,
    connectURLs := [], jsonSends := [],
    binarySends := [], stateChanges := [], speakTexts := [],
    recognizedTexts := [], audioDataEvents := [], emotionEvents := [],
    iotCommandEvents := [], channelOpenCount := 0, channelClosedCount := 0,
    networkErrorCount := 0 }

/-- Models `uuid.New().String()`: an opaque fresh identifier; all that the
code relies on is that it is never empty and fresh per counter value. -/
def uuidGen (n : Nat) : String :=
  String.mk ('u' :: List.replicate n 'u')

/-- Go `Client.SetState`: update the state and, when it actually changed, invoke
the state-changed callback (recorded in `stateChanges`). -/
def SetState (w : World) (newState : CState) : World :=
  let old := w.client.state
  { w with
    client := { w.client with state := newState }
    stateChanges :=
      if old ≠ newState then w.stateChanges ++ [(old, newState)]
      else w.stateChanges }

/-- Go `WebsocketProtocol.SetHeader` as seen from the client: record the header. -/
def SetHeader (w : World) (key value : String) : World :=
  { w with headers := w.headers ++ [(key, value)] }

/-- Record an invocation of `protocol.SendJSON` with the given message. -/
def recordJSON (w : World) (m : OutMsg) : World :=
  { w with jsonSends := w.jsonSends ++ [m] }

/-- Go `Client.handleDisconnected`: the normal path (goroutine) resets the state
to Idle, clears the session id and fires the channel-closed / network-error
callbacks; if it does not finish within the 2-second watchdog
(`completes = false`), the watchdog force-resets state and session id. -/
def handleDisconnected (w : World) (err : Option String) (completes : Bool) :
    World :=
  if completes then
    let old := w.client.state
    let w1 := { w with client := { w.client with state := .idle, sessionID := "" } }
    let w2 :=
      if old ≠ CState.idle then
        { w1 with channelClosedCount := w1.channelClosedCount + 1 }
      else w1
    if err.isSome then { w2 with networkErrorCount := w2.networkErrorCount + 1 }
    else w2
  else
    { w with client := { w.client with state := .idle, sessionID := "" } }

/-- Go `Client.CloseAudioChannel`: no-op success from Idle; otherwise disconnect
the transport (its error, or a panic converted to an error, is
`disconnectErr`), run the shared disconnect handling, force Idle, and return
the disconnect error. -/
def CloseAudioChannel (w : World) (disconnectErr : Option String)
    (completes : Bool) : World × Option String :=
  if w.client.state = CState.idle then (w, none)
  else
    let w1 := { w with connected := false }
    let w2 := handleDisconnected w1 disconnectErr completes
    let w3 := SetState w2 .idle
    (w3, disconnectErr)

/-- Go `Client.SendAudioData`: requires Listening, else a state error; in
Listening it hands the frame to the transport's binary send, whose result is
`sendErr`. -/
def SendAudioData (w : World) (data : List Nat) (sendErr : Option String) :
    World × Option String :=
  if w.client.state ≠ CState.listening then
    (w, some "客户端不在监听状态，无法发送音频数据")
  else
    ({ w with binarySends := w.binarySends ++ [data] }, sendErr)

/-- Go `Client.handleBinaryMessage`: drop the frame while Listening (anti-echo),
otherwise invoke the audio-data callback with the received bytes. -/
def handleBinaryMessage (w : World) (data : List Nat) : World :=
  if w.client.state = CState.listening then w
  else { w with audioDataEvents := w.audioDataEvents ++ [data] }

/-- Go `Client.handleTTSMessage` on an already-parsed `tts` message:
`start` → Speaking, `stop` → Idle, `sentence_start` with non-empty text →
speak-text callback; anything else is ignored. -/
def handleTTSMessage (w : World) (st text : String) : World :=
  if st = "start" then SetState w .speaking
  else if st = "stop" then SetState w .idle
  else if st = "sentence_start" then
    if text ≠ "" then { w with speakTexts := w.speakTexts ++ [text] }
    else w
  else w

/-- Go `Client.handleSTTMessage`: invoke the recognized-text callback. -/
def handleSTTMessage (w : World) (text : String) : World :=
  { w with recognizedTexts := w.recognizedTexts ++ [text] }

/-- Go `Client.handleLLMMessage`: invoke the emotion-changed callback. -/
def handleLLMMessage (w : World) (emotion text : String) : World :=
  { w with emotionEvents := w.emotionEvents ++ [(emotion, text)] }

/-- Go `Client.handleIoTMessage`: invoke the IoT-command callback only when a
`commands` array is present. -/
def handleIoTMessage (w : World) (commands : Option (List String)) : World :=
  match commands with
  | some cs => { w with iotCommandEvents := w.iotCommandEvents ++ [cs] }
  | none => w

/-- Go `Client.handleErrorMessage`: surface the server error through the
network-error callback. -/
def handleErrorMessage (w : World) : World :=
  { w with networkErrorCount := w.networkErrorCount + 1 }

/-- Go `Client.handleHelloMessage` on a parsed server hello: an invalid
type/transport pair makes the client disconnect the transport; a valid one
only signals the (non-blocking) hello-received channel. -/
def handleHelloMessage (w : World) (ttype transport : String) : World :=
  if ttype ≠ "hello" ∨ transport ≠ "websocket" then
    { w with connected := false }
  else w

/-- Go `Client.SendStartListening`: allowed from Connecting, Idle or Speaking;
generates a session id if empty, defaults the mode to manual, sends
`listen/start` (result `sendErr`), and on success transitions to Listening. -/
def SendStartListening (w : World) (mode : String) (sendErr : Option String) :
    World × Option String :=
  if w.client.state ≠ CState.connecting ∧ w.client.state ≠ CState.idle ∧
      w.client.state ≠ CState.speaking then
    (w, some "客户端状态不允许开始监听")
  else
    let c := w.client
    let c1 :=
      if c.sessionID = "" then
        { c with sessionID := uuidGen c.uuidCounter,
                 uuidCounter := c.uuidCounter + 1 }
      else c
    let mode1 := if mode = "" then "manual" else mode
    let c2 := { c1 with listenMode := mode1 }
    let w1 := recordJSON { w with client := c2 }
      (.listenMsg c2.sessionID "start" mode1 "")
    match sendErr with
    | some e => (w1, some e)
    | none => (SetState w1 .listening, none)

/-- Go `Client.SendStopListening`: requires Listening; sends `listen/stop`
without touching the state. -/
def SendStopListening (w : World) (sendErr : Option String) :
    World × Option String :=
  if w.client.state ≠ CState.listening then
    (w, some "客户端不在监听状态，无法停止监听")
  else
    (recordJSON w (.listenMsg w.client.sessionID "stop" "" ""), sendErr)

/-- The `listen/detect` send at the end of `Client.SendWakeWordDetected`. -/
def sendDetect (w : World) (text : String) (sendErr : Option String) :
    World × Option String :=
  (recordJSON w (.listenMsg w.client.sessionID "detect" "" text), sendErr)

/-- Go `Client.SendWakeWordDetected`: rejected while Connecting; auto-starts
listening first when not already Listening, then sends `listen/detect`. -/
def SendWakeWordDetected (w : World) (text : String)
    (sendErr1 sendErr2 : Option String) : World × Option String :=
  if w.client.state ≠ CState.listening ∧ w.client.state ≠ CState.speaking ∧
      w.client.state ≠ CState.idle then
    (w, some "客户端状态不允许发送唤醒词检测")
  else if w.client.state ≠ CState.listening then
    match SendStartListening w "auto" sendErr1 with
    | (w1, some e) => (w1, some e)
    | (w1, none) => sendDetect w1 text sendErr2
  else sendDetect w text sendErr1

/-- Go `Client.SendAbortSpeaking`: no-op success in Idle, otherwise sends the
`abort` message. -/
def SendAbortSpeaking (w : World) (reason : String) (sendErr : Option String) :
    World × Option String :=
  if w.client.state = CState.idle then (w, none)
  else (recordJSON w (.abortMsg w.client.sessionID reason), sendErr)

/-- Go `Client.SendIoTState` / `SendIoTDescriptors`: require a connected
transport, then send an `iot` message. -/
def sendIoT (w : World) (isDescriptors : Bool) (sendErr : Option String) :
    World × Option String :=
  if ¬ w.connected then (w, some "未连接到服务器")
  else (recordJSON w (.iotStateMsg w.client.sessionID isDescriptors), sendErr)

/-- Outcome of the raced `protocol.Connect` call inside `OpenAudioChannel`:
success, failure with an error, or hitting the 15-second timeout. -/
inductive ConnectOutcome
  | ok
  | connErr (e : String)
  | timeout
deriving DecidableEq

/-- The header-population step of `OpenAudioChannel` (its lines between the
state check and the connect attempt): Authorization when a token is set,
Protocol-Version, Device-Id from the field or the first non-empty MAC address
(`macAddr`, `none` when no interface has one), Client-Id from the field or a
freshly generated uuid. -/
def prepareHeaders (w1 : World) (macAddr : Option String) : World :=
  let w2 :=
    if w1.client.token ≠ "" then
      SetHeader w1 "Authorization" ("Bearer " ++ w1.client.token)
    else w1
  let w3 := SetHeader w2 "Protocol-Version" "1"
  let w4 :=
    if w3.client.deviceID ≠ "" then SetHeader w3 "Device-Id" w3.client.deviceID
    else
      match macAddr with
      | some m =>
        SetHeader { w3 with client := { w3.client with deviceID := m } }
          "Device-Id" m
      | none => w3
  if w4.client.clientID ≠ "" then SetHeader w4 "Client-Id" w4.client.clientID
  else
    let cid := uuidGen w4.client.uuidCounter
    let c1 : Client :=
      { w4.client with clientID := cid, uuidCounter := w4.client.uuidCounter + 1 }
    SetHeader { w4 with client := c1 } "Client-Id" cid

/-- Go `Client.OpenAudioChannel`: requires Idle; moves to Connecting, populates
the headers, attempts the connect (`conn`, racing a 15-second timeout), sends
the client hello (`helloSendErr`), and waits for the server hello
(`helloOk`); every failure path disconnects as the code does and returns to
Idle, and on success the state is left in Connecting awaiting the first
listen/speak event. -/
def OpenAudioChannel (w : World) (url : String) (macAddr : Option String)
    (conn : ConnectOutcome) (helloSendErr : Option String) (helloOk : Bool) :
    World × Option String :=
  if w.client.state ≠ CState.idle then
    (w, some "客户端不在空闲状态，无法打开音频通道")
  else
    let w5 := prepareHeaders (SetState w .connecting) macAddr
    let url1 := if url = "" then "wss://api.tenclass.net/xiaozhi/v1/" else url
    let w6 := { w5 with connectAttempts := w5.connectAttempts + 1,
                        connectURLs := w5.connectURLs ++ [url1] }
    match conn with
    | .connErr e => (SetState w6 .idle, some e)
    | .timeout => (SetState w6 .idle, some "连接WebSocket服务器超时")
    | .ok =>
      let w7 := { w6 with connected := true }
      let w8 := recordJSON w7 (.helloMsg 1 "websocket" "opus" 16000 1 60)
      match helloSendErr with
      | some e => (SetState { w8 with connected := false } .idle, some e)
      | none =>
        if helloOk then
          ({ w8 with channelOpenCount := w8.channelOpenCount + 1 }, none)
        else
          (SetState { w8 with connected := false } .idle,
           some "等待服务器Hello响应超时")

/-- One step of the session engine: a user-facing operation or a handled
inbound message, with the environment's nondeterministic outcomes carried as
event parameters. -/
inductive Event
  | evOpen (url : String) (macAddr : Option String) (conn : ConnectOutcome)
      (helloSendErr : Option String) (helloOk : Bool)
  | evClose (disconnectErr : Option String) (completes : Bool)
  | evStartListening (mode : String) (sendErr : Option String)
  | evStopListening (sendErr : Option String)
  | evWakeWord (text : String) (sendErr1 sendErr2 : Option String)
  | evAbort (reason : String) (sendErr : Option String)
  | evIoTSend (isDescriptors : Bool) (sendErr : Option String)
  | evAudioData (data : List Nat) (sendErr : Option String)
  | evDisconnected (err : Option String) (completes : Bool)
  | evTTS (st text : String)
  | evSTT (text : String)
  | evLLM (emotion text : String)
  | evIoT (commands : Option (List String))
  | evError
  | evHello (ttype transport : String)
  | evBinary (data : List Nat)

/-- Apply one event to the world. -/
def step (w : World) (e : Event) : World :=
  match e with
  | .evOpen url macAddr conn hs hok =>
    (OpenAudioChannel w url macAddr conn hs hok).1
  | .evClose derr completes => (CloseAudioChannel w derr completes).1
  | .evStartListening mode sendErr => (SendStartListening w mode sendErr).1
  | .evStopListening sendErr => (SendStopListening w sendErr).1
  | .evWakeWord text e1 e2 => (SendWakeWordDetected w text e1 e2).1
  | .evAbort reason sendErr => (SendAbortSpeaking w reason sendErr).1
  | .evIoTSend isDescriptors sendErr => (sendIoT w isDescriptors sendErr).1
  | .evAudioData data sendErr => (SendAudioData w data sendErr).1
  | .evDisconnected err completes => handleDisconnected w err completes
  | .evTTS st text => handleTTSMessage w st text
  | .evSTT text => handleSTTMessage w text
  | .evLLM emotion text => handleLLMMessage w emotion text
  | .evIoT commands => handleIoTMessage w commands
  | .evError => handleErrorMessage w
  | .evHello ttype transport => handleHelloMessage w ttype transport
  | .evBinary data => handleBinaryMessage w data

/-- Run a sequence of events from the freshly constructed client. -/
def run (events : List Event) : World :=
  events.foldl step initWorld

/-! ## Playback queue (`AudioPlayerNew`, `internal/audio`) -/

/-- The fields of `AudioPlayerNew` relevant to its playback queue: the PCM
frame queue and whether a decoder was supplied. -/
structure Player where
  queue : List (List Int)
  hasDecoder : Bool
deriving DecidableEq

/-- Go `AudioPlayerNew.QueueAudio`: ignore the frame when there is no decoder or
the payload is empty; decode it (`decoded` is the decoder's result, `none` on
a decode error) and append the decoded PCM to the queue. -/
def QueueAudio (p : Player) (encodedData : List Nat)
    (decoded : Option (List Int)) : Player :=
  if ¬ p.hasDecoder ∨ encodedData = [] then p
  else
    match decoded with
    | none => p
    | some pcmData => { p with queue := p.queue ++ [pcmData] }

/-- Go `AudioPlayerNew.QueuePCMAudio`: ignore empty frames, otherwise append a
copy of the PCM data to the queue. -/
def QueuePCMAudio (p : Player) (pcmData : List Int) : Player :=
  if pcmData = [] then p
  else { p with queue := p.queue ++ [pcmData] }

/-- One tick of the dummy-mode `processQueue` consumer: remove one frame if
the queue is non-empty. -/
def dummyTick (p : Player) : Player :=
  if p.queue.length > 0 then { p with queue := p.queue.tail } else p

/-- An enqueue operation or a one-frame-per-tick drain. -/
inductive QEvent
  | queueAudio (encodedData : List Nat) (decoded : Option (List Int))
  | queuePCM (pcmData : List Int)
  | tick

/-- Apply one queue event. -/
def qstep (p : Player) (e : QEvent) : Player :=
  match e with
  | .queueAudio encodedData decoded => QueueAudio p encodedData decoded
  | .queuePCM pcmData => QueuePCMAudio p pcmData
  | .tick => dummyTick p

/-- A freshly constructed player with a decoder and an empty queue. -/
def initPlayer : Player := { queue := [], hasDecoder := true }

/-- Run a sequence of queue events on a fresh player. -/
def qrun (events : List QEvent) : Player := events.foldl qstep initPlayer

/-- A producer burst that outpaces the drain: two enqueued frames per drained
frame, for a net growth of one frame per burst. -/
def overflowBurst : List QEvent :=
  [.queuePCM [1], .queuePCM [1], .tick]

/-- A trace of `n` producer bursts: enqueues interleaved with one-frame-per-tick drains,
with production running ahead of consumption. -/
def overflowTrace (n : Nat) : List QEvent :=
  (List.replicate n overflowBurst).flatten

/-! ## WebSocket transport (`WebsocketProtocol`, `internal/protocol`) -/

/-- The fields of `WebsocketProtocol` relevant to the send paths: the
connected flag, whether `conn` is non-nil, and the socket write log. -/
structure WS where
  connected : Bool
  hasConn : Bool
  writesJSON : List String
  writesBinary : List (List Nat)
deriving DecidableEq

/-- Go `WebsocketProtocol.SendJSON`: fails with the not-connected error when the
connection flag is down or the conn is nil, writing nothing; otherwise writes
the serialized payload, the write's own result being `writeErr`. -/
def WS.SendJSON (ws : WS) (payload : String) (writeErr : Option String) :
    WS × Option String :=
  if ¬ ws.connected ∨ ¬ ws.hasConn then (ws, some "未连接到服务器")
  else ({ ws with writesJSON := ws.writesJSON ++ [payload] }, writeErr)

/-- Go `WebsocketProtocol.SendBinary`: same gating as `SendJSON`, for binary
frames. -/
def WS.SendBinary (ws : WS) (data : List Nat) (writeErr : Option String) :
    WS × Option String :=
  if ¬ ws.connected ∨ ¬ ws.hasConn then (ws, some "未连接到服务器")
  else ({ ws with writesBinary := ws.writesBinary ++ [data] }, writeErr)

/-! ## Type discriminator (`protocol.MessageType`, `internal/protocol/message.go`)

The Go function scans for the byte pattern `"type":"` and returns the bytes
up to the following double quote.  The embedding works on the byte list,
models the eight unchecked index accesses in the `Option` monad (so that a
would-be panic is `none`), and keeps the loop structure of the source. -/

/-- Go slicing `data[s:t]`. -/
def goSlice (data : List Nat) (s t : Nat) : List Nat :=
  (data.drop s).take (t - s)

/-- The inner loop `for j < len(data) && data[j] != '"' { j++ }` of
`MessageType`: first index `k ≥ j` with `data[k] = 34` (the double-quote
byte), or `data.length` if there is none below it. -/
def scanQuote (data : List Nat) (j : Nat) : Nat :=
  if j < data.length then
    if data.get? j = some 34 then j else scanQuote data (j + 1)
  else j
termination_by data.length - j

/-- The eight unchecked byte accesses `data[i] .. data[i+7]` of `MessageType`,
in the `Option` monad so that an out-of-bounds access (a Go panic) is `none`. -/
def read8 (data : List Nat) (i : Nat) :
    Option (Nat × Nat × Nat × Nat × Nat × Nat × Nat × Nat) :=
  (data.get? i).bind fun b0 =>
  (data.get? (i + 1)).bind fun b1 =>
  (data.get? (i + 2)).bind fun b2 =>
  (data.get? (i + 3)).bind fun b3 =>
  (data.get? (i + 4)).bind fun b4 =>
  (data.get? (i + 5)).bind fun b5 =>
  (data.get? (i + 6)).bind fun b6 =>
  (data.get? (i + 7)).bind fun b7 =>
  some (b0, b1, b2, b3, b4, b5, b6, b7)

/-- The outer loop of `MessageType`, from index `i`: test the eight bytes
against `" t y p e " : "` (34 116 121 112 101 34 58 34); on a match scan for
the closing quote and return the goSlice when one exists, otherwise keep
scanning from `i + 1`.  Returns `none` only if an index access paniced. -/
def mtLoopGo (data : List Nat) (i : Nat) : Option (List Nat) :=
  if i < data.length - 8 then
    match read8 data i with
    | none => none
    | some (b0, b1, b2, b3, b4, b5, b6, b7) =>
      if b0 = 34 ∧ b1 = 116 ∧ b2 = 121 ∧ b3 = 112 ∧ b4 = 101 ∧ b5 = 34 ∧
          b6 = 58 ∧ b7 = 34 then
        if scanQuote data (i + 8) < data.length then
          some (goSlice data (i + 8) (scanQuote data (i + 8)))
        else mtLoopGo data (i + 1)
      else mtLoopGo data (i + 1)
  else some []
termination_by data.length - 8 - i

/-- Go `protocol.MessageType` on a byte list; `some bytes` is the returned
string's bytes, `none` would be a panic. -/
def MessageType (data : List Nat) : Option (List Nat) :=
  mtLoopGo data 0

/-- The claim's pattern: bytes `i..i+7` spell `"type":"`. -/
def patternAt (data : List Nat) (i : Nat) : Prop :=
  data.get? i = some 34 ∧ data.get? (i + 1) = some 116 ∧
  data.get? (i + 2) = some 121 ∧ data.get? (i + 3) = some 112 ∧
  data.get? (i + 4) = some 101 ∧ data.get? (i + 5) = some 34 ∧
  data.get? (i + 6) = some 58 ∧ data.get? (i + 7) = some 34

instance (data : List Nat) (i : Nat) : Decidable (patternAt data i) := by
  unfold patternAt; infer_instance

/-- A double quote at index `j`. -/
def quoteAt (data : List Nat) (j : Nat) : Prop :=
  data.get? j = some 34

instance (data : List Nat) (j : Nat) : Decidable (quoteAt data j) := by
  unfold quoteAt; infer_instance

/-- First index `k` with `i ≤ k < hi` satisfying `p`, if any. -/
def findFrom (p : Nat → Prop) [DecidablePred p] (hi i : Nat) : Option Nat :=
  if i < hi then (if p i then some i else findFrom p hi (i + 1)) else none
termination_by hi - i

/-- The claim's notion of a closed occurrence: the pattern at `i`, with a
closing double quote somewhere after it. -/
def closedAt (data : List Nat) (i : Nat) : Prop :=
  patternAt data i ∧ (findFrom (quoteAt data) data.length (i + 8)).isSome = true

instance (data : List Nat) (i : Nat) : Decidable (closedAt data i) := by
  unfold closedAt; infer_instance

/-- Written from the claim's words, to be compared with `MessageType`: the
bytes strictly between the first occurrence of the pattern `"type":"` and
the next double-quote character when a closed occurrence exists, and the
empty string otherwise. -/
def messageTypeClaim (data : List Nat) : List Nat :=
  if (findFrom (closedAt data) data.length 0).isSome then
    match findFrom (patternAt data) data.length 0 with
    | some i =>
      match findFrom (quoteAt data) data.length (i + 8) with
      | some j => goSlice data (i + 8) j
      | none => []
    | none => []
  else []

/-! ## Session-id invariant (C1) -/

/-- The part of the spec invariant that the code maintains: a Listening
client always carries a non-empty session id. -/
def InvC (c : Client) : Prop :=
  c.state = CState.listening → c.sessionID ≠ ""

theorem uuidGen_ne_empty (n : Nat) : uuidGen n ≠ "" := by
  intro h
  have h2 := congrArg String.data h
  simp [uuidGen] at h2

theorem SendStartListening_inv (w : World) (mode : String)
    (sendErr : Option String) (hw : InvC w.client) :
    InvC ((SendStartListening w mode sendErr).1).client := by
  cases hst : w.client.state <;> cases sendErr <;>
    by_cases hsid : w.client.sessionID = "" <;>
    simp_all [SendStartListening, recordJSON, SetState, uuidGen_ne_empty, InvC]

theorem sendDetect_client (w : World) (text : String) (sendErr : Option String) :
    ((sendDetect w text sendErr).1).client = w.client := rfl

theorem SendWakeWordDetected_inv (w : World) (text : String)
    (sendErr1 sendErr2 : Option String) (hw : InvC w.client) :
    InvC ((SendWakeWordDetected w text sendErr1 sendErr2).1).client := by
  unfold SendWakeWordDetected
  split
  · exact hw
  · split
    · have h2 := SendStartListening_inv w "auto" sendErr1 hw
      rcases hrec : SendStartListening w "auto" sendErr1 with ⟨w1, r⟩
      rw [hrec] at h2
      cases r
      · show InvC ((sendDetect w1 text sendErr2).1).client
        rw [sendDetect_client]
        exact h2
      · exact h2
    · rw [sendDetect_client]
      exact hw

theorem prepareHeaders_state (w : World) (macAddr : Option String) :
    (prepareHeaders w macAddr).client.state = w.client.state := by
  cases macAddr <;> simp only [prepareHeaders, SetHeader] <;>
    (repeat' split) <;> rfl

theorem OpenAudioChannel_inv (w : World) (url : String) (macAddr : Option String)
    (conn : ConnectOutcome) (helloSendErr : Option String) (helloOk : Bool)
    (hw : InvC w.client) :
    InvC ((OpenAudioChannel w url macAddr conn helloSendErr helloOk).1).client := by
  unfold OpenAudioChannel
  split
  · exact hw
  · cases conn <;> cases helloSendErr <;> cases helloOk <;>
      intro hls <;>
      simp_all [SetState, recordJSON, prepareHeaders_state]

theorem handleDisconnected_state (w : World) (err : Option String)
    (completes : Bool) :
    (handleDisconnected w err completes).client.state = CState.idle ∧
    (handleDisconnected w err completes).client.sessionID = "" := by
  cases completes <;> unfold handleDisconnected <;> simp <;>
    (repeat' split) <;> simp

theorem CloseAudioChannel_inv (w : World) (disconnectErr : Option String)
    (completes : Bool) (hw : InvC w.client) :
    InvC ((CloseAudioChannel w disconnectErr completes).1).client := by
  unfold CloseAudioChannel
  split
  · exact hw
  · intro hls
    simp [SetState] at hls

theorem step_inv (w : World) (e : Event) (hw : InvC w.client) :
    InvC (step w e).client := by
  cases e with
  | evOpen url macAddr conn hs hok =>
    exact OpenAudioChannel_inv w url macAddr conn hs hok hw
  | evClose derr completes => exact CloseAudioChannel_inv w derr completes hw
  | evStartListening mode sendErr =>
    exact SendStartListening_inv w mode sendErr hw
  | evStopListening sendErr =>
    show InvC ((SendStopListening w sendErr).1).client
    unfold SendStopListening
    split <;> exact hw
  | evWakeWord text e1 e2 => exact SendWakeWordDetected_inv w text e1 e2 hw
  | evAbort reason sendErr =>
    show InvC ((SendAbortSpeaking w reason sendErr).1).client
    unfold SendAbortSpeaking
    split <;> exact hw
  | evIoTSend isDescriptors sendErr =>
    show InvC ((sendIoT w isDescriptors sendErr).1).client
    unfold sendIoT
    split <;> exact hw
  | evAudioData data sendErr =>
    show InvC ((SendAudioData w data sendErr).1).client
    unfold SendAudioData
    split <;> exact hw
  | evDisconnected err completes =>
    show InvC (handleDisconnected w err completes).client
    intro hls
    rw [(handleDisconnected_state w err completes).1] at hls
    cases hls
  | evTTS st text =>
    show InvC (handleTTSMessage w st text).client
    unfold handleTTSMessage
    split
    · intro hls
      simp [SetState] at hls
    · split
      · intro hls
        simp [SetState] at hls
      · split
        · split <;> exact hw
        · exact hw
  | evSTT text => exact hw
  | evLLM emotion text => exact hw
  | evIoT commands =>
    show InvC (handleIoTMessage w commands).client
    unfold handleIoTMessage
    split <;> exact hw
  | evError => exact hw
  | evHello ttype transport =>
    show InvC (handleHelloMessage w ttype transport).client
    unfold handleHelloMessage
    split <;> exact hw
  | evBinary data =>
    show InvC (handleBinaryMessage w data).client
    unfold handleBinaryMessage
    split <;> exact hw

theorem run_inv (events : List Event) : InvC (run events).client := by
  have key : ∀ (l : List Event) (w : World), InvC w.client →
      InvC (l.foldl step w).client := by
    intro l
    induction l with
    | nil => intro w hw; exact hw
    | cons e t ih => intro w hw; exact ih _ (step_inv w e hw)
  exact key events initWorld (by intro h; simp [initWorld] at h)

/-! ## Claim theorems for the session engine (C1 - C7) -/

/-- C1, counterexample: the claimed invariant "state == Idle implies
sessionId is empty" fails on the code: after `SendStartListening` (which
generates a session id) an inbound `tts` message with state `stop` returns
the client to Idle, but `handleTTSMessage` never clears the session id —
only `handleDisconnected` does. -/
theorem idle_sessionID_not_cleared_after_tts_stop :
    (run [Event.evStartListening "manual" none,
          Event.evTTS "stop" ""]).client.state = CState.idle ∧
    (run [Event.evStartListening "manual" none,
          Event.evTTS "stop" ""]).client.sessionID ≠ "" := by
  decide

/-- C1 (amended): for every sequence of engine operations and handled
inbound messages from the initial state, whenever the state is Listening the
session id is non-empty.  (The Idle half of the claimed invariant is false,
see the counterexample.) -/
theorem listening_implies_sessionID_nonempty (events : List Event)
    (h : (run events).client.state = CState.listening) :
    (run events).client.sessionID ≠ "" :=
  run_inv events h

theorem listening_implies_sessionID_nonempty_witness :
    (run [Event.evStartListening "manual" none]).client.state =
      CState.listening ∧
    (run [Event.evStartListening "manual" none]).client.sessionID ≠ "" :=
  ⟨by decide, listening_implies_sessionID_nonempty _ (by decide)⟩

/-- C2: the shared disconnect handling — invoked both for transport-initiated
disconnects and by `CloseAudioChannel` — leaves the state Idle and the
session id empty from every prior state, on the normal path
(`completes = true`) as well as when the 2-second watchdog fires
(`completes = false`); and `CloseAudioChannel` always ends in Idle. -/
theorem disconnect_resets_to_idle (w : World) (err disconnectErr : Option String)
    (completes : Bool) :
    ((handleDisconnected w err completes).client.state = CState.idle ∧
     (handleDisconnected w err completes).client.sessionID = "") ∧
    ((CloseAudioChannel w disconnectErr completes).1.client.state =
      CState.idle ∧
     (w.client.state ≠ CState.idle →
       (CloseAudioChannel w disconnectErr completes).1.client.sessionID = "")) := by
  refine ⟨handleDisconnected_state w err completes, ?_, ?_⟩
  · unfold CloseAudioChannel
    split
    · rename_i hidle
      exact hidle
    · simp [SetState]
  · intro hne
    unfold CloseAudioChannel
    rw [if_neg (by simpa using hne)]
    simp only [SetState]
    simpa using (handleDisconnected_state _ disconnectErr completes).2

theorem disconnect_resets_to_idle_witness :
    (run [Event.evStartListening "manual" none]).client.state ≠ CState.idle ∧
    (CloseAudioChannel (run [Event.evStartListening "manual" none]) none
      true).1.client.sessionID = "" :=
  ⟨by decide,
   ((disconnect_resets_to_idle (run [Event.evStartListening "manual" none])
      none none true).2).2 (by decide)⟩

/-- C3: `OpenAudioChannel` called in any state other than Idle returns the
state error with no side effects at all — the returned world is the input
world, so state, session id, headers and the transport connection are
untouched and no connect is attempted; consequently a successful call can
only have started from Idle. -/
theorem OpenAudioChannel_requires_idle (w : World) (url : String)
    (macAddr : Option String) (conn : ConnectOutcome)
    (helloSendErr : Option String) (helloOk : Bool) :
    (w.client.state ≠ CState.idle →
      OpenAudioChannel w url macAddr conn helloSendErr helloOk =
        (w, some "客户端不在空闲状态，无法打开音频通道")) ∧
    ((OpenAudioChannel w url macAddr conn helloSendErr helloOk).2 = none →
      w.client.state = CState.idle) := by
  constructor
  · intro h
    unfold OpenAudioChannel
    rw [if_pos h]
  · intro hok2
    by_contra hne
    rw [(by
      unfold OpenAudioChannel
      rw [if_pos hne] :
      OpenAudioChannel w url macAddr conn helloSendErr helloOk =
        (w, some "客户端不在空闲状态，无法打开音频通道"))] at hok2
    simp at hok2

theorem OpenAudioChannel_requires_idle_witness :
    ((run [Event.evStartListening "manual" none]).client.state ≠
        CState.idle ∧
      OpenAudioChannel (run [Event.evStartListening "manual" none]) "" none
          .ok none true =
        (run [Event.evStartListening "manual" none],
         some "客户端不在空闲状态，无法打开音频通道")) ∧
    ((OpenAudioChannel initWorld "" none .ok none true).2 = none ∧
      initWorld.client.state = CState.idle) :=
  ⟨⟨by decide,
    (OpenAudioChannel_requires_idle _ "" none .ok none true).1 (by decide)⟩,
   ⟨by decide,
    (OpenAudioChannel_requires_idle initWorld "" none .ok none true).2
      (by decide)⟩⟩

/-- C4: `SendAudioData` in any state other than Listening returns the state
error and changes nothing — in particular the transport binary send is not
invoked and state and session id are unchanged; in Listening it delegates
the frame to the transport binary send and returns its result. -/
theorem SendAudioData_requires_listening (w : World) (data : List Nat)
    (sendErr : Option String) :
    (w.client.state ≠ CState.listening →
      SendAudioData w data sendErr =
        (w, some "客户端不在监听状态，无法发送音频数据")) ∧
    (w.client.state = CState.listening →
      SendAudioData w data sendErr =
        ({ w with binarySends := w.binarySends ++ [data] }, sendErr)) := by
  constructor
  · intro h
    unfold SendAudioData
    rw [if_pos h]
  · intro h
    unfold SendAudioData
    rw [if_neg (by simp [h])]

theorem SendAudioData_requires_listening_witness :
    (initWorld.client.state ≠ CState.listening ∧
      SendAudioData initWorld [7] none =
        (initWorld, some "客户端不在监听状态，无法发送音频数据")) ∧
    ((run [Event.evStartListening "manual" none]).client.state =
        CState.listening ∧
      SendAudioData (run [Event.evStartListening "manual" none]) [7] none =
        ({ run [Event.evStartListening "manual" none] with
            binarySends :=
              (run [Event.evStartListening "manual" none]).binarySends ++
                [[7]] }, none)) :=
  ⟨⟨by decide, (SendAudioData_requires_listening initWorld [7] none).1
      (by decide)⟩,
   ⟨by decide, (SendAudioData_requires_listening _ [7] none).2 (by decide)⟩⟩

/-- C5: handling an inbound `tts` message sets the state to Speaking on
`start` and to Idle on `stop`; on `sentence_start` with non-empty text it
only invokes the speak-text callback, changing nothing else (in particular
not the state); and a `start` followed by a `stop` leaves the client exactly
as before except for the state, which went Speaking and then Idle. -/
theorem handleTTSMessage_transitions (w : World) (t : String) :
    (handleTTSMessage w "start" t).client.state = CState.speaking ∧
    (handleTTSMessage w "stop" t).client.state = CState.idle ∧
    (t ≠ "" →
      handleTTSMessage w "sentence_start" t =
        { w with speakTexts := w.speakTexts ++ [t] }) ∧
    (handleTTSMessage (handleTTSMessage w "start" t) "stop" t).client =
      { w.client with state := CState.idle } := by
  refine ⟨?_, ?_, ?_, ?_⟩
  · simp [handleTTSMessage, SetState]
  · simp [handleTTSMessage, SetState]
  · intro ht
    simp [handleTTSMessage, ht]
  · simp [handleTTSMessage, SetState]

theorem handleTTSMessage_transitions_witness :
    ("hello" : String) ≠ "" ∧
    handleTTSMessage initWorld "sentence_start" "hello" =
      { initWorld with speakTexts := initWorld.speakTexts ++ ["hello"] } :=
  ⟨by decide, ((handleTTSMessage_transitions initWorld "hello").2).2.1
    (by decide)⟩

/-- C6: an inbound binary frame is discarded while Listening (the audio-data
callback is not invoked and nothing changes), and in every other state the
audio-data callback is invoked with exactly the received bytes. -/
theorem handleBinaryMessage_gating (w : World) (data : List Nat) :
    (w.client.state = CState.listening → handleBinaryMessage w data = w) ∧
    (w.client.state ≠ CState.listening →
      handleBinaryMessage w data =
        { w with audioDataEvents := w.audioDataEvents ++ [data] }) := by
  constructor
  · intro h
    unfold handleBinaryMessage
    rw [if_pos h]
  · intro h
    unfold handleBinaryMessage
    rw [if_neg h]

theorem handleBinaryMessage_gating_witness :
    ((run [Event.evStartListening "manual" none]).client.state =
        CState.listening ∧
      handleBinaryMessage (run [Event.evStartListening "manual" none]) [9] =
        run [Event.evStartListening "manual" none]) ∧
    ((run [Event.evTTS "start" ""]).client.state ≠ CState.listening ∧
      handleBinaryMessage (run [Event.evTTS "start" ""]) [9] =
        { run [Event.evTTS "start" ""] with
            audioDataEvents :=
              (run [Event.evTTS "start" ""]).audioDataEvents ++ [[9]] }) :=
  ⟨⟨by decide, (handleBinaryMessage_gating _ [9]).1 (by decide)⟩,
   ⟨by decide, (handleBinaryMessage_gating _ [9]).2 (by decide)⟩⟩

/-- C7: `CloseAudioChannel` is idempotent: from Idle it is a no-op returning
success, and after any first call (from any state, with any disconnect
outcome) the state is Idle, so a second call never errors and leaves the
state Idle. -/
theorem CloseAudioChannel_idempotent (w : World) (d1 d2 : Option String)
    (b1 b2 : Bool) :
    (w.client.state = CState.idle → CloseAudioChannel w d1 b1 = (w, none)) ∧
    ((CloseAudioChannel w d1 b1).1.client.state = CState.idle ∧
      CloseAudioChannel (CloseAudioChannel w d1 b1).1 d2 b2 =
        ((CloseAudioChannel w d1 b1).1, none)) := by
  have hidle : ∀ (v : World) (d : Option String) (b : Bool),
      v.client.state = CState.idle → CloseAudioChannel v d b = (v, none) := by
    intro v d b hv
    unfold CloseAudioChannel
    rw [if_pos hv]
  have hstate : (CloseAudioChannel w d1 b1).1.client.state = CState.idle := by
    unfold CloseAudioChannel
    split
    · rename_i hv
      exact hv
    · simp [SetState]
  exact ⟨hidle w d1 b1, hstate, hidle _ d2 b2 hstate⟩

theorem CloseAudioChannel_idempotent_witness :
    initWorld.client.state = CState.idle ∧
    CloseAudioChannel initWorld none true = (initWorld, none) :=
  ⟨by decide, (CloseAudioChannel_idempotent initWorld none none true true).1
    (by decide)⟩

/-! ## Claim theorems for the playback queue (C8) and the transport (C9) -/

theorem overflowBurst_foldl (p : Player) :
    (overflowBurst.foldl qstep p).queue.length = p.queue.length + 1 := by
  simp [overflowBurst, qstep, QueuePCMAudio, dummyTick, List.length_tail]

theorem overflowTrace_length (n : Nat) :
    ∀ p : Player, ((overflowTrace n).foldl qstep p).queue.length =
      p.queue.length + n := by
  induction n with
  | zero => intro p; simp [overflowTrace]
  | succ m ih =>
    intro p
    have hsplit : overflowTrace (m + 1) = overflowBurst ++ overflowTrace m := by
      simp [overflowTrace, List.replicate_succ]
    rw [hsplit, List.foldl_append, ih, overflowBurst_foldl]
    omega

/-- C8, counterexample: the playback queue is not bounded — no fixed
capacity makes every sequence of enqueues interleaved with
one-frame-per-tick drains stay below it, since `QueuePCMAudio` appends
unconditionally: `n+1` bursts of two enqueued frames per drained frame leave
`n+1` frames queued, exceeding any claimed bound `n`. -/
theorem playback_queue_not_bounded :
    ¬ ∃ bound : Nat, ∀ events : List QEvent,
        (qrun events).queue.length ≤ bound := by
  rintro ⟨bound, h⟩
  have h1 := h (overflowTrace (bound + 1))
  rw [show qrun (overflowTrace (bound + 1)) =
      (overflowTrace (bound + 1)).foldl qstep initPlayer from rfl,
    overflowTrace_length (bound + 1) initPlayer] at h1
  simp [initPlayer] at h1

/-- C8 (amended): the playback queue is unbounded: `QueueAudio` and
`QueuePCMAudio` append every successfully decoded / non-empty frame without
any capacity check or drop policy, the only removal being the
one-frame-per-tick drain, so for every claimed bound `n` there is a sequence
of enqueues interleaved with drains after which the queue length exceeds
`n`. -/
theorem playback_queue_exceeds_any_bound (n : Nat) :
    n < (qrun (overflowTrace (n + 1))).queue.length := by
  rw [show qrun (overflowTrace (n + 1)) =
      (overflowTrace (n + 1)).foldl qstep initPlayer from rfl,
    overflowTrace_length (n + 1) initPlayer]
  simp [initPlayer]

/-- C9: `SendJSON` and `SendBinary` called while the connection flag is down
return the not-connected error and write nothing to the socket (the
transport state, including both write logs, is returned unchanged). -/
theorem WS_send_not_connected (ws : WS) (payload : String) (data : List Nat)
    (e1 e2 : Option String) (h : ws.connected = false) :
    ws.SendJSON payload e1 = (ws, some "未连接到服务器") ∧
    ws.SendBinary data e2 = (ws, some "未连接到服务器") := by
  constructor
  · unfold WS.SendJSON
    rw [if_pos (by simp [h])]
  · unfold WS.SendBinary
    rw [if_pos (by simp [h])]

theorem WS_send_not_connected_witness :
    (WS.mk false true [] []).connected = false ∧
    ((WS.mk false true [] []).SendJSON "x" none =
      (WS.mk false true [] [], some "未连接到服务器") ∧
     (WS.mk false true [] []).SendBinary [1] none =
      (WS.mk false true [] [], some "未连接到服务器")) :=
  ⟨by decide, WS_send_not_connected (WS.mk false true [] []) "x" [1] none none
    (by decide)⟩

/-! ## Correctness of `MessageType` (C10) -/

theorem scanQuote_ge (data : List Nat) (j : Nat) : j ≤ scanQuote data j := by
  rw [scanQuote.eq_def]
  split
  · split
    · exact Nat.le_refl _
    · have h := scanQuote_ge data (j + 1)
      omega
  · exact Nat.le_refl _
termination_by data.length - j

theorem scanQuote_le (data : List Nat) (j : Nat) (h : j ≤ data.length) :
    scanQuote data j ≤ data.length := by
  rw [scanQuote.eq_def]
  split
  case isTrue hj =>
    split
    case isTrue hq => exact Nat.le_of_lt hj
    case isFalse hq => exact scanQuote_le data (j + 1) hj
  case isFalse hj => exact h
termination_by data.length - j

theorem scanQuote_hit (data : List Nat) (j : Nat)
    (h : scanQuote data j < data.length) :
    data.get? (scanQuote data j) = some 34 := by
  by_cases hj : j < data.length
  · by_cases hq : data.get? j = some 34
    · rw [scanQuote.eq_def, if_pos hj, if_pos hq]
      exact hq
    · rw [scanQuote.eq_def, if_pos hj, if_neg hq] at h ⊢
      exact scanQuote_hit data (j + 1) h
  · rw [scanQuote.eq_def, if_neg hj] at h
    omega
termination_by data.length - j

theorem scanQuote_min (data : List Nat) (j k : Nat) (h1 : j ≤ k)
    (h2 : k < scanQuote data j) : ¬ data.get? k = some 34 := by
  by_cases hj : j < data.length
  · by_cases hq : data.get? j = some 34
    · rw [scanQuote.eq_def, if_pos hj, if_pos hq] at h2
      omega
    · rw [scanQuote.eq_def, if_pos hj, if_neg hq] at h2
      rcases Nat.eq_or_lt_of_le h1 with heq | hlt
      · subst heq
        exact hq
      · exact scanQuote_min data (j + 1) k hlt h2
  · rw [scanQuote.eq_def, if_neg hj] at h2
    omega
termination_by data.length - j

theorem findFrom_some {p : Nat → Prop} [DecidablePred p] {hi i k : Nat}
    (h : findFrom p hi i = some k) :
    i ≤ k ∧ k < hi ∧ p k ∧ ∀ m, i ≤ m → m < k → ¬ p m := by
  by_cases hih : i < hi
  · by_cases hp : p i
    · rw [findFrom.eq_def, if_pos hih, if_pos hp] at h
      injection h with h
      subst h
      exact ⟨Nat.le_refl _, hih, hp, fun m hm1 hm2 _ => by omega⟩
    · rw [findFrom.eq_def, if_pos hih, if_neg hp] at h
      obtain ⟨ih1, ih2, ih3, ih4⟩ := findFrom_some h
      refine ⟨by omega, ih2, ih3, ?_⟩
      intro m hm1 hm2
      rcases Nat.eq_or_lt_of_le hm1 with heq | hlt
      · subst heq
        exact hp
      · exact ih4 m hlt hm2
  · rw [findFrom.eq_def, if_neg hih] at h
    cases h
termination_by hi - i

theorem findFrom_none {p : Nat → Prop} [DecidablePred p] {hi i : Nat}
    (h : findFrom p hi i = none) :
    ∀ m, i ≤ m → m < hi → ¬ p m := by
  intro m hm1 hm2
  by_cases hih : i < hi
  · by_cases hp : p i
    · rw [findFrom.eq_def, if_pos hih, if_pos hp] at h
      cases h
    · rw [findFrom.eq_def, if_pos hih, if_neg hp] at h
      rcases Nat.eq_or_lt_of_le hm1 with heq | hlt
      · subst heq
        exact hp
      · exact findFrom_none h m hlt hm2
  · exact absurd (Nat.lt_of_le_of_lt hm1 hm2) hih
termination_by hi - i

theorem findFrom_eq_some {p : Nat → Prop} [DecidablePred p] {hi i k : Nat}
    (hik : i ≤ k) (hk : k < hi) (hp : p k)
    (hmin : ∀ m, i ≤ m → m < k → ¬ p m) :
    findFrom p hi i = some k := by
  rcases Nat.eq_or_lt_of_le hik with heq | hlt
  · subst heq
    rw [findFrom.eq_def, if_pos (by omega), if_pos hp]
  · rw [findFrom.eq_def, if_pos (by omega),
      if_neg (hmin i (Nat.le_refl _) hlt)]
    exact findFrom_eq_some hlt hk hp (fun m hm1 hm2 => hmin m (by omega) hm2)
termination_by hi - i

theorem findFrom_isSome {p : Nat → Prop} [DecidablePred p] {hi i k : Nat}
    (hik : i ≤ k) (hk : k < hi) (hp : p k) :
    (findFrom p hi i).isSome = true := by
  cases hf : findFrom p hi i
  · exact absurd hp (findFrom_none hf k hik hk)
  · rfl

theorem scanQuote_findFrom (data : List Nat) (s : Nat)
    (h : scanQuote data s < data.length) :
    findFrom (quoteAt data) data.length s = some (scanQuote data s) :=
  findFrom_eq_some (scanQuote_ge data s) h (scanQuote_hit data s h)
    (fun m hm1 hm2 => scanQuote_min data s m hm1 hm2)

theorem scanQuote_none_findFrom (data : List Nat) (s : Nat)
    (hs : s ≤ data.length) (h : ¬ scanQuote data s < data.length) :
    findFrom (quoteAt data) data.length s = none := by
  cases hf : findFrom (quoteAt data) data.length s
  · rfl
  · rename_i k
    obtain ⟨h1, h2, h3, -⟩ := findFrom_some hf
    have hle := scanQuote_le data s hs
    exact absurd h3 (scanQuote_min data s k h1 (by omega))

theorem patternAt_le (data : List Nat) (i : Nat) (h : patternAt data i) :
    i + 8 ≤ data.length := by
  obtain ⟨-, -, -, -, -, -, -, h7⟩ := h
  obtain ⟨hlt, -⟩ := List.get?_eq_some.mp h7
  omega

theorem read8_isSome (data : List Nat) (i : Nat) (h : i + 8 ≤ data.length) :
    ∃ t, read8 data i = some t := by
  have hget : ∀ k, k < data.length → ∃ b, data.get? k = some b := by
    intro k hk
    cases hg : data.get? k
    · rw [List.get?_eq_none] at hg
      omega
    · exact ⟨_, rfl⟩
  obtain ⟨b0, h0⟩ := hget i (by omega)
  obtain ⟨b1, h1⟩ := hget (i + 1) (by omega)
  obtain ⟨b2, h2⟩ := hget (i + 2) (by omega)
  obtain ⟨b3, h3⟩ := hget (i + 3) (by omega)
  obtain ⟨b4, h4⟩ := hget (i + 4) (by omega)
  obtain ⟨b5, h5⟩ := hget (i + 5) (by omega)
  obtain ⟨b6, h6⟩ := hget (i + 6) (by omega)
  obtain ⟨b7, h7⟩ := hget (i + 7) (by omega)
  exact ⟨(b0, b1, b2, b3, b4, b5, b6, b7),
    by simp only [read8, h0, Option.some_bind, h1, h2, h3, h4, h5, h6, h7]⟩

theorem read8_pattern (data : List Nat) (i : Nat)
    (b0 b1 b2 b3 b4 b5 b6 b7 : Nat)
    (h : read8 data i = some (b0, b1, b2, b3, b4, b5, b6, b7)) :
    (b0 = 34 ∧ b1 = 116 ∧ b2 = 121 ∧ b3 = 112 ∧ b4 = 101 ∧ b5 = 34 ∧
      b6 = 58 ∧ b7 = 34) ↔ patternAt data i := by
  simp only [read8, Option.bind_eq_some] at h
  obtain ⟨a0, h0, a1, h1, a2, h2, a3, h3, a4, h4, a5, h5, a6, h6, a7, h7,
    heq⟩ := h
  injection heq with heq
  simp only [Prod.mk.injEq] at heq
  obtain ⟨rfl, rfl, rfl, rfl, rfl, rfl, rfl, rfl⟩ := heq
  simp only [patternAt, h0, h1, h2, h3, h4, h5, h6, h7, Option.some.injEq]

theorem claim_nil_of_no_closed (data : List Nat)
    (h : ∀ m, ¬ closedAt data m) : messageTypeClaim data = [] := by
  have hf : findFrom (closedAt data) data.length 0 = none := by
    cases hf : findFrom (closedAt data) data.length 0
    · rfl
    · rename_i k
      obtain ⟨-, -, h3, -⟩ := findFrom_some hf
      exact absurd h3 (h k)
  unfold messageTypeClaim
  rw [hf]
  simp

theorem closed_none_above (data : List Nat) (i : Nat)
    (hge : data.length - 8 ≤ i)
    (hH : ∀ m, m < i → ¬ patternAt data m) :
    ∀ m, ¬ closedAt data m := by
  intro m hm
  obtain ⟨hp, hq⟩ := hm
  by_cases hmi : m < i
  · exact hH m hmi hp
  · have h8 := patternAt_le data m hp
    have hm8 : m + 8 = data.length := by omega
    rw [hm8, findFrom.eq_def, if_neg (Nat.lt_irrefl _)] at hq
    simp at hq

theorem mtLoopGo_no_pattern (data : List Nat) :
    ∀ fuel i, data.length - 8 - i ≤ fuel →
      (∀ m, i ≤ m → ¬ patternAt data m) →
      mtLoopGo data i = some [] := by
  intro fuel
  induction fuel with
  | zero =>
    intro i hf hH
    rw [mtLoopGo.eq_def, if_neg (by omega)]
  | succ n ih =>
    intro i hf hH
    by_cases hi : i < data.length - 8
    · obtain ⟨t, ht⟩ := read8_isSome data i (by omega)
      obtain ⟨b0, b1, b2, b3, b4, b5, b6, b7⟩ := t
      rw [mtLoopGo.eq_def, if_pos hi]
      simp only [ht]
      rw [if_neg (fun hc =>
        hH i (Nat.le_refl i)
          ((read8_pattern data i b0 b1 b2 b3 b4 b5 b6 b7 ht).mp hc))]
      exact ih (i + 1) (by omega) (fun m hm => hH m (by omega))
    · rw [mtLoopGo.eq_def, if_neg hi]

theorem mtLoopGo_spec (data : List Nat) :
    ∀ fuel i, data.length - 8 - i ≤ fuel →
      (∀ m, m < i → ¬ patternAt data m) →
      mtLoopGo data i = some (messageTypeClaim data) := by
  intro fuel
  induction fuel with
  | zero =>
    intro i hf hH
    rw [mtLoopGo.eq_def, if_neg (by omega),
      claim_nil_of_no_closed data (closed_none_above data i (by omega) hH)]
  | succ n ih =>
    intro i hf hH
    by_cases hi : i < data.length - 8
    · obtain ⟨t, ht⟩ := read8_isSome data i (by omega)
      obtain ⟨b0, b1, b2, b3, b4, b5, b6, b7⟩ := t
      have hpat := read8_pattern data i b0 b1 b2 b3 b4 b5 b6 b7 ht
      by_cases hp : patternAt data i
      · by_cases hscan : scanQuote data (i + 8) < data.length
        · rw [mtLoopGo.eq_def, if_pos hi]
          simp only [ht]
          rw [if_pos (hpat.mpr hp), if_pos hscan]
          have hfirst : findFrom (patternAt data) data.length 0 = some i :=
            findFrom_eq_some (Nat.zero_le i) (by omega) hp
              (fun m hm1 hm2 => hH m hm2)
          have hquote : findFrom (quoteAt data) data.length (i + 8) =
              some (scanQuote data (i + 8)) :=
            scanQuote_findFrom data (i + 8) hscan
          have hclosed : (findFrom (closedAt data) data.length 0).isSome =
              true :=
            findFrom_isSome (Nat.zero_le i) (by omega)
              ⟨hp, by rw [hquote]; rfl⟩
          have hclaim : messageTypeClaim data =
              goSlice data (i + 8) (scanQuote data (i + 8)) := by
            simp [messageTypeClaim, hclosed, hfirst, hquote]
          rw [hclaim]
        · rw [mtLoopGo.eq_def, if_pos hi]
          simp only [ht]
          rw [if_pos (hpat.mpr hp), if_neg hscan]
          have hnq : findFrom (quoteAt data) data.length (i + 8) = none :=
            scanQuote_none_findFrom data (i + 8) (by omega) hscan
          have hnopat : ∀ m, i + 1 ≤ m → ¬ patternAt data m := by
            intro m hm hpm
            have h8 := patternAt_le data m hpm
            obtain ⟨-, -, -, -, -, -, -, h7⟩ := hpm
            have hle := scanQuote_le data (i + 8) (by omega)
            exact scanQuote_min data (i + 8) (m + 7) (by omega) (by omega) h7
          have hnoc : ∀ m, ¬ closedAt data m := by
            intro m hm
            obtain ⟨hpm, hqm⟩ := hm
            by_cases hmi : m < i
            · exact hH m hmi hpm
            · by_cases hmi2 : m = i
              · subst hmi2
                rw [hnq] at hqm
                simp at hqm
              · exact hnopat m (by omega) hpm
          rw [mtLoopGo_no_pattern data data.length (i + 1) (by omega) hnopat,
            claim_nil_of_no_closed data hnoc]
      · rw [mtLoopGo.eq_def, if_pos hi]
        simp only [ht]
        rw [if_neg (fun hc => hp (hpat.mp hc))]
        exact ih (i + 1) (by omega) (fun m hm => by
          rcases Nat.lt_succ_iff_lt_or_eq.mp hm with h1 | h2
          · exact hH m h1
          · subst h2
            exact hp)
    · rw [mtLoopGo.eq_def, if_neg hi,
        claim_nil_of_no_closed data (closed_none_above data i (by omega) hH)]

/-- C10: `protocol.MessageType` terminates with every index access in bounds
(the result is `some _`, never the panic value `none`), and its result is
exactly the claim's description: the bytes strictly between the first
occurrence of the pattern `"type":"` and the next double quote when a closed
occurrence exists, and the empty string otherwise (in particular for every
input shorter than 9 bytes, where the scan loop never runs). -/
theorem MessageType_eq_claim (data : List Nat) :
    MessageType data = some (messageTypeClaim data) :=
  mtLoopGo_spec data data.length 0 (by omega)
    (fun m hm => absurd hm (Nat.not_lt_zero m))
